import Mathlib

/-!
Verification development for the kuma-cni traffic-interception ruleset
builder and eBPF loader glue (`src/ebpf/ebpf.go` and the iptables
table builder `table.go`).

The table renderer (`TableBuilder.Build`, `NatTable`) is embedded from the
source.  The `chain` package (`chain.ChainBuilder`, `chain.NewChain`) and the
`consts.Flags` lookup table are not part of the sources; they are modelled
from the specification and marked as such in their doc comments.
-/

/-- Modelled from the spec: `chain.ChainBuilder` (the `chain` package is not
among the sources).  A Chain is an ordered, named collection of Rules; a Rule
is one line of ruleset text, opaque, with no identity beyond its textual
content, so it is embedded as a `String`. -/
structure ChainBuilder where
  name : String
  rules : List String
deriving DecidableEq

/-- Modelled from the spec: `chain.NewChain` creates a Chain with the given
name and no rules ("each created empty at Table construction"). -/
def NewChain (name : String) : ChainBuilder :=
  { name := name, rules := [] }

/-- Modelled from the spec: `ChainBuilder.Build(verbose)` produces, for each
owned Rule in insertion order, its rendered line.  Rule-level verbose
annotation is explicitly out of the spec's scope ("not modeled further here -
delegated to Rule's own renderer"), so a Rule renders as its textual content
in both modes. -/
def ChainBuilder.build (c : ChainBuilder) (_verbose : Bool) : List String :=
  c.rules

/-- Modelled from the spec: `ChainBuilder.String()` / `Chain.Name()` - the
chain's stable name, used for rendering custom-chain declarations. -/
def ChainBuilder.str (c : ChainBuilder) : String :=
  c.name

/-- Modelled from the spec: the `consts.Flags` lookup table (not among the
sources) - "a static mapping from semantic directive name (e.g. `declare new
chain`) to its two textual spellings (compact flag vs. verbose/annotated
flag), indexed by the same boolean mode flag".  For the `new-chain` directive
the two spellings are the iptables short flag `-N` (compact) and long flag
`--new-chain` (verbose). -/
def Flags (directive : String) (verbose : Bool) : String :=
  if directive = "new-chain" then
    (if verbose then "--new-chain" else "-N")
  else ""

/-- Embeds `table.TableBuilder` (table.go): a named table with custom chains
(`newChains`) and built-in chains (`chains`). -/
structure TableBuilder where
  name : String
  newChains : List ChainBuilder
  chains : List ChainBuilder

/-- The declaration line rendered for a custom chain in
`TableBuilder.Build` (table.go line 242):
`Flags["new-chain"][verbose] + " " + c.String()`. -/
def declLine (verbose : Bool) (c : ChainBuilder) : String :=
  Flags "new-chain" verbose ++ " " ++ c.str

/-- The `ruleLines` slice built by the two loops of `TableBuilder.Build`
(table.go lines 236-245): all rule lines of the built-in chains in order,
followed by all rule lines of the custom chains in attachment order. -/
def ruleLinesOf (b : TableBuilder) (verbose : Bool) : List String :=
  (b.chains.map (fun c => c.build verbose)).flatten ++
    (b.newChains.map (fun c => c.build verbose)).flatten

/-- Embeds `TableBuilder.Build` (table.go lines 231-279).  The source builds
`newChainLines` and appends custom-chain rules in a single loop over
`b.newChains`; here the two independent slices are expressed as `map`s over
the same list, in the same iteration order. -/
def TableBuilder.build (b : TableBuilder) (verbose : Bool) : String :=
  let tableLine := "* " ++ b.name
  let newChainLines := b.newChains.map (fun c => declLine verbose c)
  let ruleLines := ruleLinesOf b verbose
  let newChainLines2 :=
    if verbose then
      (if 0 < newChainLines.length then "# Custom Chains:" :: newChainLines
       else newChainLines)
    else newChainLines
  let ruleLines2 :=
    if verbose then
      (if 0 < ruleLines.length then "# Rules:" :: ruleLines else ruleLines)
    else ruleLines
  let newChains := String.intercalate "\n" newChainLines2
  let lines1 := if newChains ≠ "" then [tableLine] ++ [newChains] else [tableLine]
  let rules := String.intercalate "\n" ruleLines2
  let lines2 := if rules ≠ "" then lines1 ++ [rules] else lines1
  let lines3 := lines2 ++ ["COMMIT"]
  if verbose then String.intercalate "\n\n" lines3
  else String.intercalate "\n" lines3

/-- Explicit-state rendering of `TableBuilder.Build`: the Go method only
reads through its receiver pointer and never assigns to any field reachable
from it, so the explicit state-passing translation returns the table
unchanged alongside the rendered string. -/
def TableBuilder.buildS (b : TableBuilder) (verbose : Bool) :
    String × TableBuilder :=
  (b.build verbose, b)

/-- Embeds `table.NatTable` (table.go lines 281-289): four fixed built-in chains and
the attached custom chains. -/
structure NatTable where
  prerouting : ChainBuilder
  input : ChainBuilder
  output : ChainBuilder
  postrouting : ChainBuilder
  chains : List ChainBuilder

/-- Embeds `NatTable.AddChain` (table.go lines 307-311): appends a custom chain. -/
def NatTable.addChain (t : NatTable) (c : ChainBuilder) : NatTable :=
  { t with chains := t.chains ++ [c] }

/-- Embeds `NatTable.Build` (table.go lines 313-326): builds a `TableBuilder` named
`nat` whose built-in chains are PREROUTING, INPUT, OUTPUT, POSTROUTING in
that fixed order and whose custom chains are the attached ones. -/
def NatTable.build (t : NatTable) (verbose : Bool) : String :=
  TableBuilder.build
    { name := "nat"
      newChains := t.chains
      chains := [t.prerouting, t.input, t.output, t.postrouting] } verbose

/-- Explicit-state rendering of `NatTable.Build`: the Go method constructs a
fresh `TableBuilder` from the receiver's fields and never mutates the
receiver, so the state component is returned unchanged. -/
def NatTable.buildS (t : NatTable) (verbose : Bool) : String × NatTable :=
  (t.build verbose, t)

/-- Embeds `Nat()` (table.go lines 328-335): a freshly constructed NAT-style table
with four empty built-in chains and no custom chains.  (Named `natTable`
here because `Nat` is taken in Lean.) -/
def natTable : NatTable :=
  { prerouting := NewChain "PREROUTING"
    input := NewChain "INPUT"
    output := NewChain "OUTPUT"
    postrouting := NewChain "POSTROUTING"
    chains := [] }

/-- Embeds `MaxItemLen` (ebpf.go line 41): the maximal amount of items like
ports or IP ranges to include or exclude, hardcoded to 10. -/
def MaxItemLen : Nat := 10

/-- Rounds `n` up to the next multiple of the alignment `a` - Go's struct
field placement rule. -/
def alignUp (n a : Nat) : Nat :=
  ((n + a - 1) / a) * a

/-- Field offsets of a Go struct described by its list of (size, alignment)
pairs, in field order: each field is placed at the current size rounded up to
the field's alignment. -/
def goStructOffsets (fields : List (Nat × Nat)) : List Nat :=
  (fields.foldl
    (fun (acc : List Nat × Nat) f =>
      let off := alignUp acc.2 f.2
      (acc.1 ++ [off], off + f.1))
    ([], 0)).1

/-- Total unpadded size of a Go struct: the end of its last field. -/
def goStructEnd (fields : List (Nat × Nat)) : Nat :=
  (fields.foldl
    (fun (acc : List Nat × Nat) f =>
      let off := alignUp acc.2 f.2
      (acc.1 ++ [off], off + f.1))
    ([], 0)).2

/-- Alignment of a Go struct: the maximum alignment of its fields. -/
def goStructAlign (fields : List (Nat × Nat)) : Nat :=
  fields.foldl (fun a f => max a f.2) 1

/-- Size of a Go struct: the end of the last field rounded up to the struct
alignment. -/
def goStructSize (fields : List (Nat × Nat)) : Nat :=
  alignUp (goStructEnd fields) (goStructAlign fields)

/-- Embeds the field layout of `Cidr` (ebpf.go lines 50-54) as (size,
alignment) pairs in source field order: `Net uint32` (network order),
`Mask uint8`, and a `[3]uint8` pad. -/
def cidrFields : List (Nat × Nat) :=
  [(4, 4), (1, 1), (3, 1)]

/-- Embeds the field layout of `PodConfig` (ebpf.go lines 56-65) as (size,
alignment) pairs in source field order: `StatusPort uint16`, a `uint16` pad,
`ExcludeOutRanges [MaxItemLen]Cidr`, `IncludeOutRanges [MaxItemLen]Cidr`,
`IncludeInPorts`, `IncludeOutPorts`, `ExcludeInPorts`, `ExcludeOutPorts`
(each `[MaxItemLen]uint16`).  An array's size is the item count times the
element size; its alignment is the element alignment. -/
def podConfigFields : List (Nat × Nat) :=
  [(2, 2), (2, 2),
   (MaxItemLen * goStructSize cidrFields, goStructAlign cidrFields),
   (MaxItemLen * goStructSize cidrFields, goStructAlign cidrFields),
   (MaxItemLen * 2, 2), (MaxItemLen * 2, 2), (MaxItemLen * 2, 2),
   (MaxItemLen * 2, 2)]

/-- Embeds `os.ProcessState.ExitCode` as used by `run` (ebpf.go line 97): the
exit code of the finished process, or `-1` when the process never started
(`cmd.ProcessState` is `nil` - Go's `ExitCode` checks `p == nil` and returns
`-1` rather than dereferencing). -/
def exitCodeOf : Option Int → Int
  | none => -1
  | some code => code

/-- Embeds `run` (ebpf.go lines 87-104), restricted to its result value.  The
external process outcome is the environment's input: `cmdErr` is the error
returned by `cmd.Run()` (`none` on success) and `processState` is the exit
code of the process, `none` when it never started.  `run` returns `some`
error message iff the exit code is nonzero or `cmd.Run` failed. -/
def run (cmdErr : Option String) (processState : Option Int) : Option String :=
  let code := exitCodeOf processState
  if code ≠ 0 || cmdErr.isSome then
    some ("unexpected exit code: " ++ toString code ++ ", err: " ++
      (match cmdErr with
       | some e => e
       | none => "<nil>"))
  else none

/-- Embeds `Program` (ebpf.go lines 67-70).  `Flags` is a function returning
an argument list or an error; here the outcome of calling it is carried
directly (`flags`). -/
structure Program where
  name : String
  flags : Except String (List String)

/-- The error produced by processing one program in the loop of
`LoadAndAttachEbpfPrograms` (ebpf.go lines 130-147): the flag-computation
error if `Flags()` fails, otherwise the outcome of `run` on the joined
program path, where `runErr` abstracts the external-process environment
(`none` = the invocation succeeds). -/
def progErr (runErr : String → List String → Option String)
    (sourcePath : String) (p : Program) : Option String :=
  match p.flags with
  | Except.error e => some e
  | Except.ok flags => runErr (sourcePath ++ "/" ++ p.name) flags

/-- One iteration of the loop of `LoadAndAttachEbpfPrograms`: appends the
program's error (if any) to `errs` and records that the program was
attempted. -/
def loadStep (runErr : String → List String → Option String)
    (sourcePath : String) (acc : List String × List String) (p : Program) :
    List String × List String :=
  match progErr runErr sourcePath p with
  | some e => (acc.1 ++ [e], acc.2 ++ [p.name])
  | none => (acc.1, acc.2 ++ [p.name])

/-- Embeds `LoadAndAttachEbpfPrograms` (ebpf.go lines 127-155).  Returns the
function's result (`none` = `nil` error; `some msg` = the joined error) plus
the list of programs attempted, in order.  The loop `continue`s past every
failure and joins the accumulated errors only after the whole batch. -/
def LoadAndAttachEbpfPrograms (runErr : String → List String → Option String)
    (sourcePath : String) (programs : List Program) :
    Option String × List String :=
  let acc := programs.foldl (loadStep runErr sourcePath) ([], [])
  (if 0 < acc.1.length then
     some ("loading and attaching bpf programs failed:\n" ++
       String.intercalate "\n\t" acc.1)
   else none,
   acc.2)

/-- File-system node as observed by `os.ReadDir` /
`os.FileInfo.IsDir`: a file, or a directory with a list of entries (entry
names play no role in the emptiness check, so they are omitted). -/
inductive FSNode where
  | file : FSNode
  | dir : List FSNode → FSNode

/-- Embeds `isDirEmpty` (ebpf.go lines 106-125) on the entry list of a
directory: a directory is empty iff every entry is itself a directory that is
recursively empty (any regular file makes it non-empty). -/
def isDirEmptyEntries : List FSNode → Bool
  | [] => true
  | FSNode.file :: _ => false
  | FSNode.dir es :: rest => isDirEmptyEntries es && isDirEmptyEntries rest

/-- Side effects `InitBPFFSMaybe` can perform: the `unix.Mount` of the bpf
file system, and the `os.MkdirAll` of `tc/globals`. -/
inductive InitAction where
  | mount : InitAction
  | mkdirTcGlobals : InitAction
deriving DecidableEq

/-- Embeds `InitBPFFSMaybe` (ebpf.go lines 157-187) with the environment made
explicit: `stat` is the result of `os.Stat` on the path (`none` = stat
error), and `mountErr` / `mkdirErr` are the outcomes of the mount and mkdir
system calls (`none` = success).  Returns the function's result together with
the list of actions actually performed, in order. -/
def InitBPFFSMaybe (mountErr mkdirErr : Option String) (stat : Option FSNode) :
    Except String Unit × List InitAction :=
  match stat with
  | none => (Except.error "stat failed", [])
  | some FSNode.file =>
    (Except.error "bpf fs path is not a directory", [])
  | some (FSNode.dir entries) =>
    if !(isDirEmptyEntries entries) then (Except.ok (), [])
    else
      match mountErr with
      | some e =>
        (Except.error ("mounting BPF file system failed: " ++ e), [])
      | none =>
        match mkdirErr with
        | some e =>
          (Except.error ("making directory for tc globals pinning failed: " ++ e),
           [InitAction.mount])
        | none => (Except.ok (), [InitAction.mount, InitAction.mkdirTcGlobals])

/-- Join a list of strings, writing the separator before every element -
`sjoin s [a, b] = s ++ a ++ s ++ b`.  Normal form for reasoning about
`String.intercalate`: `String.intercalate s (a :: l) = a ++ sjoin s l`. -/
def sjoin (s : String) : List String → String
  | [] => ""
  | a :: as => s ++ a ++ sjoin s as

/-- Splits a character list at every newline character; `acc` holds the
(reversed) characters of the current line. -/
def splitNl : List Char → List Char → List (List Char)
  | [], acc => [acc.reverse]
  | c :: cs, acc =>
    if c = '\n' then acc.reverse :: splitNl cs [] else splitNl cs (c :: acc)

/-- The lines of a string: the segments between newline characters. -/
def linesOf (s : String) : List String :=
  (splitNl s.data []).map List.asString

/-- Keeps a line when it is neither a comment line (starting with `#`) nor a
blank segment-separator line. -/
def keepLine (l : String) : Bool :=
  match l.data with
  | [] => false
  | c :: _ => !(c = '#')

/-- A plain ruleset line: non-blank, not a comment line, and a single line
(contains no newline character). -/
def plainLine (r : String) : Bool :=
  !(r.data = []) && !(r.data.head? = some '#') && !(r.data.contains '\n')

/-- Strips the verbose-mode annotations from a rendered table block: removes
all comment lines and all blank segment-separator lines, and rejoins the
remaining lines with single newlines. -/
def stripVerbose (s : String) : String :=
  String.intercalate "\n" ((linesOf s).filter keepLine)

theorem sjoin_nil (s : String) : sjoin s [] = "" := rfl

theorem sjoin_cons (s a : String) (l : List String) :
    sjoin s (a :: l) = s ++ a ++ sjoin s l := rfl

theorem sjoin_append (s : String) (l1 l2 : List String) :
    sjoin s (l1 ++ l2) = sjoin s l1 ++ sjoin s l2 := by
  induction l1 with
  | nil => simp [sjoin]
  | cons a t ih => simp [sjoin, ih, String.append_assoc]

theorem intercalate_go_eq (s : String) : ∀ (l : List String) (acc : String),
    String.intercalate.go acc s l = acc ++ sjoin s l
  | [], acc => by simp [String.intercalate.go, sjoin]
  | a :: as, acc => by
    rw [String.intercalate.go, intercalate_go_eq s as]
    simp [sjoin, String.append_assoc]

theorem intercalate_cons (s a : String) (l : List String) :
    String.intercalate s (a :: l) = a ++ sjoin s l := by
  rw [String.intercalate, intercalate_go_eq]

theorem intercalate_nil (s : String) : String.intercalate s [] = "" := by
  rw [String.intercalate]

theorem append_ne_empty_left (a b : String) (h : 0 < a.length) :
    a ++ b ≠ "" := by
  intro hc
  have hl := congrArg String.length hc
  rw [String.length_append] at hl
  simp [String.length_empty] at hl
  omega

theorem append3 (a b c x : String) :
    a ++ (b ++ (c ++ x)) = ((a ++ b) ++ c) ++ x := by
  rw [String.append_assoc, String.append_assoc]

theorem comment_block_ne_empty (h : String) (l : List String)
    (hh : 0 < h.length) : String.intercalate "\n" (h :: l) ≠ "" := by
  rw [intercalate_cons]
  exact append_ne_empty_left _ _ hh

theorem buildDecomp (b : TableBuilder) (verbose : Bool) :
    ∃ p q r, b.build verbose =
      p ++ String.intercalate "\n" (b.newChains.map (fun c => declLine verbose c)) ++
        q ++ String.intercalate "\n" (ruleLinesOf b verbose) ++ r := by
  cases verbose with
  | false =>
    by_cases hD :
        String.intercalate "\n" (b.newChains.map (fun c => declLine false c)) = ""
    · by_cases hR : String.intercalate "\n" (ruleLinesOf b false) = ""
      · refine ⟨"* " ++ b.name, "\n", "COMMIT", ?_⟩
        simp [TableBuilder.build, hD, hR, intercalate_cons, sjoin_cons, sjoin_nil,
          String.append_empty, String.empty_append, String.append_assoc]
      · refine ⟨"* " ++ b.name, "\n", "\n" ++ "COMMIT", ?_⟩
        simp [TableBuilder.build, hD, hR, intercalate_cons, sjoin_cons, sjoin_nil,
          String.append_empty, String.empty_append, String.append_assoc]
    · by_cases hR : String.intercalate "\n" (ruleLinesOf b false) = ""
      · refine ⟨"* " ++ b.name ++ "\n", "\n" ++ "COMMIT", "", ?_⟩
        simp [TableBuilder.build, hD, hR, intercalate_cons, sjoin_cons, sjoin_nil,
          String.append_empty, String.empty_append, String.append_assoc]
      · refine ⟨"* " ++ b.name ++ "\n", "\n", "\n" ++ "COMMIT", ?_⟩
        simp [TableBuilder.build, hD, hR, intercalate_cons, sjoin_cons, sjoin_nil,
          String.append_empty, String.empty_append, String.append_assoc]
  | true =>
    rcases hN : b.newChains with _ | ⟨c, cs⟩
    · rcases hRl : ruleLinesOf b true with _ | ⟨r0, rs⟩
      · refine ⟨"* " ++ b.name, "\n\n", "COMMIT", ?_⟩
        simp [TableBuilder.build, hN, hRl, intercalate_nil, intercalate_cons,
          sjoin_cons, sjoin_nil, String.append_empty, String.empty_append,
          String.append_assoc]
      · refine ⟨"* " ++ b.name ++ "\n\n" ++ "# Rules:" ++ "\n", "",
          "\n\n" ++ "COMMIT", ?_⟩
        have hR2 : "# Rules:" ++ ("\n" ++ (r0 ++ sjoin "\n" rs)) ≠ "" :=
          append_ne_empty_left _ _ (by decide)
        simp [TableBuilder.build, hN, hRl, intercalate_nil, intercalate_cons,
          sjoin_cons, sjoin_nil, hR2, String.append_empty, String.empty_append,
          String.append_assoc]
        rw [append3 "\n\n" "# Rules:" "\n"]
        simp [String.append_assoc]
    · rcases hRl : ruleLinesOf b true with _ | ⟨r0, rs⟩
      · refine ⟨"* " ++ b.name ++ "\n\n" ++ "# Custom Chains:" ++ "\n",
          "\n\n" ++ "COMMIT", "", ?_⟩
        have hD2 : "# Custom Chains:" ++
            ("\n" ++ (declLine true c ++
              sjoin "\n" (List.map (fun c => declLine true c) cs))) ≠ "" :=
          append_ne_empty_left _ _ (by decide)
        simp [TableBuilder.build, hN, hRl, intercalate_nil, intercalate_cons,
          sjoin_cons, sjoin_nil, hD2, String.append_empty, String.empty_append,
          String.append_assoc]
        rw [append3 "\n\n" "# Custom Chains:" "\n"]
        simp [String.append_assoc]
      · refine ⟨"* " ++ b.name ++ "\n\n" ++ "# Custom Chains:" ++ "\n",
          "\n\n" ++ "# Rules:" ++ "\n", "\n\n" ++ "COMMIT", ?_⟩
        have hD2 : "# Custom Chains:" ++
            ("\n" ++ (declLine true c ++
              sjoin "\n" (List.map (fun c => declLine true c) cs))) ≠ "" :=
          append_ne_empty_left _ _ (by decide)
        have hR2 : "# Rules:" ++ ("\n" ++ (r0 ++ sjoin "\n" rs)) ≠ "" :=
          append_ne_empty_left _ _ (by decide)
        simp [TableBuilder.build, hN, hRl, intercalate_nil, intercalate_cons,
          sjoin_cons, sjoin_nil, hD2, hR2, String.append_empty,
          String.empty_append, String.append_assoc]
        rw [append3 "\n\n" "# Custom Chains:" "\n",
          append3 "\n\n" "# Rules:" "\n"]
        simp [String.append_assoc]

theorem asString_data (a : String) : a.data.asString = a := rfl

theorem splitNl_no_nl : ∀ (l acc : List Char), '\n' ∉ l →
    splitNl l acc = [acc.reverse ++ l]
  | [], acc, _ => by simp [splitNl]
  | c :: cs, acc, h => by
    have hc : c ≠ '\n' := fun hh => h (hh ▸ List.mem_cons_self c cs)
    have hcs : '\n' ∉ cs := fun hh => h (List.mem_cons_of_mem c hh)
    rw [splitNl, if_neg hc, splitNl_no_nl cs (c :: acc) hcs]
    simp

theorem splitNl_append : ∀ (l1 l2 acc : List Char), '\n' ∉ l1 →
    splitNl (l1 ++ '\n' :: l2) acc = (acc.reverse ++ l1) :: splitNl l2 []
  | [], l2, acc, _ => by simp [splitNl]
  | c :: cs, l2, acc, h => by
    have hc : c ≠ '\n' := fun hh => h (hh ▸ List.mem_cons_self c cs)
    have hcs : '\n' ∉ cs := fun hh => h (List.mem_cons_of_mem c hh)
    rw [List.cons_append, splitNl, if_neg hc, splitNl_append cs l2 (c :: acc) hcs]
    simp

theorem linesOf_no_nl (a : String) (ha : '\n' ∉ a.data) : linesOf a = [a] := by
  unfold linesOf
  rw [splitNl_no_nl _ _ ha]
  simp [asString_data]

theorem linesOf_append_nl (a s : String) (ha : '\n' ∉ a.data) :
    linesOf (a ++ "\n" ++ s) = a :: linesOf s := by
  unfold linesOf
  rw [String.data_append, String.data_append]
  have h1 : ("\n" : String).data = ['\n'] := rfl
  rw [h1, List.append_assoc, List.singleton_append, splitNl_append _ _ _ ha]
  simp [asString_data]

theorem plainLine_not_nl (r : String) (h : plainLine r = true) :
    '\n' ∉ r.data := by
  simp [plainLine, List.contains, List.elem_eq_mem] at h
  exact h.2

theorem plainLine_keep (r : String) (h : plainLine r = true) :
    keepLine r = true := by
  simp [plainLine] at h
  rcases hd : r.data with _ | ⟨c, cs⟩
  · exact absurd hd h.1.1
  · rw [keepLine, hd]
    have := h.1.2
    rw [hd] at this
    simp at this
    simp [this]

theorem ruleLinesOf_mode (b : TableBuilder) (u v : Bool) :
    ruleLinesOf b u = ruleLinesOf b v := rfl

theorem linesOf_intercalate_plain : ∀ (rs : List String) (r0 : String),
    (∀ r ∈ r0 :: rs, plainLine r = true) → ∀ (s : String),
    linesOf (String.intercalate "\n" (r0 :: rs) ++ "\n" ++ s) =
      r0 :: rs ++ linesOf s
  | [], r0, hp, s => by
    have h0 : String.intercalate "\n" [r0] = r0 := by
      rw [intercalate_cons, sjoin_nil, String.append_empty]
    rw [h0, linesOf_append_nl r0 s (plainLine_not_nl r0 (hp r0 (by simp)))]
    simp
  | r1 :: rs, r0, hp, s => by
    have heq : String.intercalate "\n" (r0 :: r1 :: rs) ++ "\n" ++ s =
        r0 ++ "\n" ++ (String.intercalate "\n" (r1 :: rs) ++ "\n" ++ s) := by
      apply String.ext
      simp [intercalate_cons, sjoin_cons, String.data_append]
    rw [heq, linesOf_append_nl r0 _ (plainLine_not_nl r0 (hp r0 (by simp)))]
    rw [linesOf_intercalate_plain rs r1
      (fun r hr => hp r (List.mem_cons_of_mem r0 hr)) s]
    simp

theorem strip_build_no_customs (b : TableBuilder)
    (hN : b.newChains = [])
    (hT : plainLine ("* " ++ b.name) = true)
    (hR : ∀ r ∈ ruleLinesOf b true, plainLine r = true) :
    stripVerbose (b.build true) = b.build false := by
  have hnlT : '\n' ∉ ("* " ++ b.name).data := plainLine_not_nl _ hT
  rcases hRl : ruleLinesOf b true with _ | ⟨r0, rs⟩
  · have hRl0 : ruleLinesOf b false = [] := by
      rw [ruleLinesOf_mode b false true, hRl]
    have hbt : b.build true = ("* " ++ b.name) ++ "\n" ++ ("" ++ "\n" ++ "COMMIT") := by
      simp [TableBuilder.build, hN, hRl, intercalate_cons, intercalate_nil,
        sjoin_cons, sjoin_nil]
      apply String.ext
      simp [String.data_append]
    have hbf : b.build false = ("* " ++ b.name) ++ "\n" ++ "COMMIT" := by
      simp [TableBuilder.build, hN, hRl0, intercalate_cons, intercalate_nil,
        sjoin_cons, sjoin_nil]
      apply String.ext
      simp [String.data_append]
    rw [hbt, hbf]
    simp only [stripVerbose]
    rw [linesOf_append_nl _ _ hnlT,
      linesOf_append_nl "" _ (by decide),
      linesOf_no_nl "COMMIT" (by decide)]
    have hk : keepLine ("* " ++ b.name) = true := plainLine_keep _ hT
    have hk2 : keepLine "" = false := by decide
    have hk3 : keepLine "COMMIT" = true := by decide
    simp [List.filter, hk, hk2, hk3, intercalate_cons, sjoin_cons, sjoin_nil]
    apply String.ext
    simp [String.data_append]
  · rw [hRl] at hR
    have hRl0 : ruleLinesOf b false = r0 :: rs := by
      rw [ruleLinesOf_mode b false true, hRl]
    have hR2 : "# Rules:" ++ ("\n" ++ r0 ++ sjoin "\n" rs) ≠ "" :=
      append_ne_empty_left _ _ (by decide)
    have hR3 : r0 ++ sjoin "\n" rs ≠ "" := by
      intro hc
      have h0 := hR r0 (by simp)
      simp [plainLine] at h0
      have := congrArg String.data hc
      rw [String.data_append] at this
      simp at this
      exact h0.1.1 this.1
    have hbt : b.build true =
        ("* " ++ b.name) ++ "\n" ++ ("" ++ "\n" ++
          ("# Rules:" ++ "\n" ++
            (String.intercalate "\n" (r0 :: rs) ++ "\n" ++
              ("" ++ "\n" ++ "COMMIT")))) := by
      simp [TableBuilder.build, hN, hRl, intercalate_cons, intercalate_nil,
        sjoin_cons, sjoin_nil, hR2]
      apply String.ext
      simp [String.data_append, intercalate_cons, sjoin_cons]
    have hbf : b.build false =
        ("* " ++ b.name) ++ "\n" ++
          (String.intercalate "\n" (r0 :: rs) ++ "\n" ++ "COMMIT") := by
      simp [TableBuilder.build, hN, hRl0, intercalate_cons, intercalate_nil,
        sjoin_cons, sjoin_nil, hR3]
      apply String.ext
      simp [String.data_append, intercalate_cons, sjoin_cons]
    rw [hbt, hbf]
    simp only [stripVerbose]
    rw [linesOf_append_nl _ _ hnlT,
      linesOf_append_nl "" _ (by decide),
      linesOf_append_nl "# Rules:" _ (by decide),
      linesOf_intercalate_plain rs r0 hR _,
      linesOf_append_nl "" _ (by decide),
      linesOf_no_nl "COMMIT" (by decide)]
    have hk : keepLine ("* " ++ b.name) = true := plainLine_keep _ hT
    have hk2 : keepLine "" = false := by decide
    have hk3 : keepLine "COMMIT" = true := by decide
    have hk4 : keepLine "# Rules:" = false := by decide
    have hkr0 : keepLine r0 = true := plainLine_keep r0 (hR r0 (by simp))
    have hfr : List.filter keepLine rs = rs :=
      List.filter_eq_self.mpr
        (fun r hr => plainLine_keep r (hR r (List.mem_cons_of_mem r0 hr)))
    simp [hk, hk2, hk3, hk4, hkr0, hfr]
    apply String.ext
    simp [String.data_append, intercalate_cons, sjoin_cons, sjoin_nil,
      sjoin_append]

/-- C1: for every Table with N custom chains attached in order c1..cN,
`Table.Build(verbose)` contains a contiguous declaration-line group of
exactly N declaration lines (the mode-selected new-chain flag followed by
the chain's name), in attachment order c1..cN, and this group occurs at an
earlier string position in the output than the (joined) rule lines. -/
theorem c1_declaration_group (b : TableBuilder) (verbose : Bool) :
    (b.newChains.map (fun c => declLine verbose c)).length =
      b.newChains.length ∧
    ∃ p q r, b.build verbose =
      p ++ String.intercalate "\n"
        (b.newChains.map (fun c => declLine verbose c)) ++
        q ++ String.intercalate "\n" (ruleLinesOf b verbose) ++ r :=
  ⟨by simp, buildDecomp b verbose⟩

/-- C2: in the rule-line group of `Table.Build(verbose)` all rule lines of
the built-in chains appear first, in the fixed role order PREROUTING,
INPUT, OUTPUT, POSTROUTING, followed by all rule lines of the custom chains
in attachment order, never interleaved: the output contains the joined rule
lines as one contiguous block in exactly that order. -/
theorem c2_rule_group_order (t : NatTable) (verbose : Bool) :
    ∃ p q, t.build verbose =
      p ++ String.intercalate "\n"
        (t.prerouting.build verbose ++ t.input.build verbose ++
          t.output.build verbose ++ t.postrouting.build verbose ++
          (t.chains.map (fun c => c.build verbose)).flatten) ++ q := by
  obtain ⟨p, q, r, h⟩ := buildDecomp
    { name := "nat", newChains := t.chains
      chains := [t.prerouting, t.input, t.output, t.postrouting] } verbose
  have hl : ruleLinesOf
      { name := "nat", newChains := t.chains
        chains := [t.prerouting, t.input, t.output, t.postrouting] } verbose =
      t.prerouting.build verbose ++ t.input.build verbose ++
        t.output.build verbose ++ t.postrouting.build verbose ++
        (t.chains.map (fun c => c.build verbose)).flatten := by
    simp [ruleLinesOf, List.append_assoc]
  rw [hl] at h
  refine ⟨p ++ String.intercalate "\n"
      (t.chains.map (fun c => declLine verbose c)) ++ q, r, ?_⟩
  show TableBuilder.build _ verbose = _
  rw [h]

/-- C4: `Build(false)` on a freshly constructed NAT-style Table (four empty
built-in chains, no custom chains) returns exactly the string
`* nat\nCOMMIT`. -/
theorem c4_empty_table_compact : natTable.build false = "* nat\nCOMMIT" := by
  rfl

/-- C10: `Build(true)` on a freshly constructed NAT-style Table returns
exactly `* nat\n\nCOMMIT`: header and COMMIT separated by a blank line, with
no comment lines for the empty groups. -/
theorem c10_empty_table_verbose : natTable.build true = "* nat\n\nCOMMIT" := by
  rfl

/-- C5: `Build` is a pure, deterministic function of the Table state and the
mode flag: in the explicit-state embedding the Table is unchanged by a
`Build` call, and a second call on the resulting state yields an identical
output string (for both the generic table builder and the NAT table). -/
theorem c5_build_pure_idempotent (b : TableBuilder) (t : NatTable)
    (verbose : Bool) :
    (b.buildS verbose).2 = b ∧
    ((b.buildS verbose).2.buildS verbose).1 = (b.buildS verbose).1 ∧
    (t.buildS verbose).2 = t ∧
    ((t.buildS verbose).2.buildS verbose).1 = (t.buildS verbose).1 :=
  ⟨rfl, rfl, rfl, rfl⟩

/-- C3 counterexample: for the NAT table with one custom chain `FOO`
attached, the verbose output stripped of comment lines and blank separators
is `* nat\n--new-chain FOO\nCOMMIT`, while the compact output is
`* nat\n-N FOO\nCOMMIT`: the declaration line keeps the mode-selected
(long) flag spelling, so the two are not byte-for-byte equal. -/
theorem c3_strip_counterexample :
    ¬ (stripVerbose ((natTable.addChain (NewChain "FOO")).build true) =
        (natTable.addChain (NewChain "FOO")).build false) := by
  decide

/-- C3 (amended): for every NAT-style Table with no custom chains whose rule
lines are plain single lines (non-blank, not starting with `#`, containing
no newline), the verbose output with comment lines and blank-line segment
separators stripped is byte-for-byte equal to the compact output.  (With a
custom chain attached the two outputs differ in the mode-dependent spelling
of the declaration-line flag, so custom chains must be excluded.) -/
theorem c3_amended_strip_roundtrip (t : NatTable)
    (h1 : t.chains = [])
    (h2 : ∀ c ∈ [t.prerouting, t.input, t.output, t.postrouting],
        ∀ r ∈ c.rules, plainLine r = true) :
    stripVerbose (t.build true) = t.build false := by
  have h := strip_build_no_customs
    { name := "nat", newChains := t.chains
      chains := [t.prerouting, t.input, t.output, t.postrouting] }
    h1 (by show plainLine ("* " ++ "nat") = true; decide) ?_
  · exact h
  · intro r hr
    simp only [ruleLinesOf, ChainBuilder.build, h1] at hr
    simp at hr
    rcases hr with h | h | h | h
    · exact h2 t.prerouting (by simp) r h
    · exact h2 t.input (by simp) r h
    · exact h2 t.output (by simp) r h
    · exact h2 t.postrouting (by simp) r h

/-- Closed witness for the amended C3 theorem: a NAT table whose PREROUTING
chain holds one plain rule line. -/
theorem c3_amended_witness :
    stripVerbose
      ((NatTable.mk (ChainBuilder.mk "PREROUTING" ["-A PREROUTING -j KUMA"])
          (NewChain "INPUT") (NewChain "OUTPUT") (NewChain "POSTROUTING")
          []).build true) =
      (NatTable.mk (ChainBuilder.mk "PREROUTING" ["-A PREROUTING -j KUMA"])
          (NewChain "INPUT") (NewChain "OUTPUT") (NewChain "POSTROUTING")
          []).build false :=
  c3_amended_strip_roundtrip _ rfl (by decide)

/-- C6: `InitBPFFSMaybe` initializes (mounts the bpf filesystem and creates
the tc/globals subdirectory) only when the path is a directory found empty:
a non-empty directory returns success with no action performed, an empty
directory performs the mount and the mkdir, and actions are only ever
performed for an empty directory. -/
theorem c6_init_only_when_empty (mountErr mkdirErr : Option String)
    (entries : List FSNode) (stat : Option FSNode) :
    (isDirEmptyEntries entries = false →
      InitBPFFSMaybe mountErr mkdirErr (some (FSNode.dir entries)) =
        (Except.ok (), [])) ∧
    (isDirEmptyEntries entries = true → mountErr = none → mkdirErr = none →
      InitBPFFSMaybe mountErr mkdirErr (some (FSNode.dir entries)) =
        (Except.ok (), [InitAction.mount, InitAction.mkdirTcGlobals])) ∧
    ((InitBPFFSMaybe mountErr mkdirErr stat).2 ≠ [] →
      ∃ es, stat = some (FSNode.dir es) ∧ isDirEmptyEntries es = true) := by
  refine ⟨?_, ?_, ?_⟩
  · intro h
    simp [InitBPFFSMaybe, h]
  · intro h hm hk
    simp [InitBPFFSMaybe, h, hm, hk]
  · intro h
    match hs : stat with
    | none => simp [InitBPFFSMaybe] at h
    | some FSNode.file => simp [InitBPFFSMaybe] at h
    | some (FSNode.dir es) =>
      refine ⟨es, rfl, ?_⟩
      by_cases he : isDirEmptyEntries es = true
      · exact he
      · have he2 : isDirEmptyEntries es = false := Bool.eq_false_iff.mpr he
        simp [InitBPFFSMaybe, he2] at h

/-- Closed witness for C6: a directory containing one regular file is
non-empty, and `InitBPFFSMaybe` returns success with no mount and no mkdir
performed. -/
theorem c6_init_witness :
    isDirEmptyEntries [FSNode.file] = false ∧
    InitBPFFSMaybe none none (some (FSNode.dir [FSNode.file])) =
      (Except.ok (), []) :=
  ⟨by simp [isDirEmptyEntries],
   (c6_init_only_when_empty none none [FSNode.file] none).1
     (by simp [isDirEmptyEntries])⟩

theorem loadFoldl (runErr : String → List String → Option String)
    (sourcePath : String) : ∀ (ps : List Program) (errs att : List String),
    ps.foldl (loadStep runErr sourcePath) (errs, att) =
      (errs ++ ps.filterMap (progErr runErr sourcePath),
       att ++ ps.map (fun p => p.name))
  | [], errs, att => by simp
  | p :: ps, errs, att => by
    rw [List.foldl_cons]
    have hstep : loadStep runErr sourcePath (errs, att) p =
        (match progErr runErr sourcePath p with
         | some e => (errs ++ [e], att ++ [p.name])
         | none => (errs, att ++ [p.name])) := rfl
    cases hp : progErr runErr sourcePath p with
    | none =>
      rw [hstep, hp, loadFoldl runErr sourcePath ps]
      simp [List.filterMap_cons, hp]
    | some e =>
      rw [hstep, hp, loadFoldl runErr sourcePath ps]
      simp [List.filterMap_cons, hp]

/-- C7: `LoadAndAttachEbpfPrograms` attempts every program in order
regardless of prior failures, returns success iff every program succeeds,
and otherwise returns a single joined error listing the failure message of
every failing program, only after the whole batch. -/
theorem c7_loader_batch (runErr : String → List String → Option String)
    (sourcePath : String) (programs : List Program) :
    (LoadAndAttachEbpfPrograms runErr sourcePath programs).2 =
      programs.map (fun p => p.name) ∧
    ((LoadAndAttachEbpfPrograms runErr sourcePath programs).1 = none ↔
      ∀ p ∈ programs, progErr runErr sourcePath p = none) ∧
    (programs.filterMap (progErr runErr sourcePath) ≠ [] →
      (LoadAndAttachEbpfPrograms runErr sourcePath programs).1 =
        some ("loading and attaching bpf programs failed:\n" ++
          String.intercalate "\n\t"
            (programs.filterMap (progErr runErr sourcePath)))) := by
  have hf := loadFoldl runErr sourcePath programs [] []
  refine ⟨?_, ?_, ?_⟩
  · simp [LoadAndAttachEbpfPrograms, hf]
  · simp [LoadAndAttachEbpfPrograms, hf]
  · intro h
    have hl : 0 < (programs.filterMap (progErr runErr sourcePath)).length :=
      List.length_pos.mpr h
    simp [LoadAndAttachEbpfPrograms, hf, hl]

/-- Closed witness for C7: three programs where exactly the second one's
invocation fails; all three are attempted in order and the joined error
reports exactly the failing program's message. -/
theorem c7_loader_witness :
    (LoadAndAttachEbpfPrograms
        (fun n _ => if n = "src/b" then some "boom" else none) "src"
        [Program.mk "a" (Except.ok []), Program.mk "b" (Except.ok []),
         Program.mk "c" (Except.ok [])]).2 = ["a", "b", "c"] ∧
    (LoadAndAttachEbpfPrograms
        (fun n _ => if n = "src/b" then some "boom" else none) "src"
        [Program.mk "a" (Except.ok []), Program.mk "b" (Except.ok []),
         Program.mk "c" (Except.ok [])]).1 =
      some "loading and attaching bpf programs failed:\nboom" := by
  have h := c7_loader_batch
    (fun n _ => if n = "src/b" then some "boom" else none) "src"
    [Program.mk "a" (Except.ok []), Program.mk "b" (Except.ok []),
     Program.mk "c" (Except.ok [])]
  refine ⟨by rw [h.1]; decide, ?_⟩
  rw [h.2.2 (by decide)]
  decide

/-- C8: `run` completes and returns an error value both when the invoked
program exits with a nonzero code and when its execution fails entirely
(process never started, or `cmd.Run` reported an error), so the batch loop
can accumulate the failure. -/
theorem c8_run_reports_failure (cmdErr : Option String)
    (processState : Option Int) :
    (exitCodeOf processState ≠ 0 →
      (run cmdErr processState).isSome = true) ∧
    (cmdErr ≠ none → (run cmdErr processState).isSome = true) ∧
    (processState = none → (run cmdErr processState).isSome = true) := by
  refine ⟨?_, ?_, ?_⟩
  · intro h
    simp [run, h]
  · intro h
    have : cmdErr.isSome = true := Option.isSome_iff_ne_none.mpr h
    simp [run, this]
  · intro h
    subst h
    simp [run, exitCodeOf]

/-- Closed witness for C8: an execution that fails entirely (process never
started, `cmd.Run` error `exec failure`) still yields an error value. -/
theorem c8_run_witness :
    (run (some "exec failure") none).isSome = true :=
  (c8_run_reports_failure (some "exec failure") none).2.2 rfl

/-- C9: the per-pod record caps every category at exactly `MaxItemLen = 10`
items; a `Cidr` is a 4-byte network-order address plus a 1-byte prefix
length padded (3 pad bytes) to 8 bytes; `PodConfig` holds, in field order, a
2-byte status port (plus 2 pad bytes), two 80-byte arrays of 10 `Cidr`
ranges (excluded then included outbound), and four 20-byte arrays of 10
2-byte ports (include-in, include-out, exclude-in, exclude-out), for a total
of 244 bytes at the documented offsets. -/
theorem c9_podconfig_layout :
    MaxItemLen = 10 ∧
    goStructSize cidrFields = 8 ∧
    goStructAlign cidrFields = 4 ∧
    goStructOffsets cidrFields = [0, 4, 5] ∧
    podConfigFields =
      [(2, 2), (2, 2), (80, 4), (80, 4), (20, 2), (20, 2), (20, 2), (20, 2)] ∧
    goStructOffsets podConfigFields = [0, 2, 4, 84, 164, 184, 204, 224] ∧
    goStructSize podConfigFields = 244 := by
  decide
